import Mathlib

/-!
Shallow embedding of the UBCSailbot `boat_simulator` repository, covering the
two nodes present in the source:

* `PhysicsEngineNode` (src/boat_simulator/nodes/physics_engine/physics_engine_node.py):
  the timer-driven publishers and the asynchronous rudder-actuation
  goal/feedback/result protocol ("Actuation Request Coordinator" in the spec).
* `DataCollectionNode` (src/boat_simulator/nodes/data_collection/data_collection_node.py):
  the periodic JSON writing logic.

Python floats are modelled as exact rationals (`ℚ`); the arithmetic performed
by the source (multiplication, `divmod(x, 1)`, `int(...)`) is translated
exactly.  Python `int(...)` truncates toward zero, modelled by `pyInt`.

The node's mutable attributes become fields of an explicit state record, and
every ROS callback becomes a state-transition function translated line by
line from the corresponding Python method.  The completion of an async future
(which fires its registered done-callback and retires the future) is modelled
by an event step that removes the future from the set of registered pending
futures and then runs the callback body.  Logger calls are modelled as an
event log (only the log sites of the actuation protocol and publish path are
recorded; the constant initialization debug lines carry no state).
-/

namespace BoatSim

/-- Python `int(q)` for a rational `q`: truncation toward zero. -/
def pyInt (q : ℚ) : ℤ := if 0 ≤ q then ⌊q⌋ else ⌈q⌉

/-- Severity of a logger call, per the `get_logger().debug/info/warn` call used
at each source log site. -/
inductive LogLevel
  | debug
  | info
  | warn
deriving DecidableEq, Repr

/-- The log sites of `PhysicsEngineNode` that the claims refer to, each
carrying the values interpolated into the source's f-string.
`debugResult r a` is the line of `__rudder_action_get_result_callback`
reporting the heading residual `r` and the current rudder angle `a`. -/
inductive LogEvent
  | infoPublish
  | debugInitiateRudderGoal
  | warnGoalTimedOut
  | debugCompletedGoalRequest
  | warnGoalRejected
  | debugGoalAccepted
  | debugFeedback (angle : ℚ)
  | debugResult (residual : ℚ) (rudderAngle : ℚ)
deriving DecidableEq, Repr

/-- Severity used by the source at each log site. -/
def logLevel : LogEvent → LogLevel
  | .infoPublish => .info
  | .debugInitiateRudderGoal => .debug
  | .warnGoalTimedOut => .warn
  | .debugCompletedGoalRequest => .debug
  | .warnGoalRejected => .warn
  | .debugGoalAccepted => .debug
  | .debugFeedback _ => .debug
  | .debugResult _ _ => .debug

/-- Which registered future a pending done-callback belongs to:
`response` is the `send_goal_async` future with
`__rudder_action_goal_response_callback` registered; `result` is the
`get_result_async` future with `__rudder_action_get_result_callback`
registered. -/
inductive GoalFutureKind
  | response
  | result
deriving DecidableEq, Repr

/-- One outstanding future with a registered done-callback, tagged with the
identity of the goal it belongs to (goals are numbered in dispatch order). -/
structure PendingFuture where
  goalId : ℕ
  kind : GoalFutureKind
deriving DecidableEq, Repr

/-- GPS message fields assigned by `__publish_gps` (`lat_lon.latitude`,
`lat_lon.longitude`, `speed.speed`, `heading.heading`). -/
structure GpsMsg where
  latitude : ℚ
  longitude : ℚ
  speed : ℚ
  heading : ℚ
deriving DecidableEq, Repr

/-- WindSensor message fields assigned by `__publish_wind_sensors`. -/
structure WindSensorMsg where
  speed : ℚ
  direction : ℤ
deriving DecidableEq, Repr

/-- Header of the `SimWorldState` message (`msg.header.stamp.sec`,
`msg.header.stamp.nanosec`, `msg.header.frame_id`). -/
structure HeaderMsg where
  stampSec : ℤ
  stampNanosec : ℤ
  frameId : String
deriving DecidableEq, Repr

/-- The parts of the `SimWorldState` message the claims refer to: the header
and the embedded GPS.  The remaining pose/velocity/acceleration/wrench fields
are assigned the constants 0.0 (and 1.0 for the two quaternion w components)
by `__publish_kinematics` and are referenced by no claim, so they are not
carried here. -/
structure SimWorldStateMsg where
  header : HeaderMsg
  globalGps : GpsMsg
deriving DecidableEq, Repr

/-- A message handed to one of the node's three publishers. -/
inductive PubMsg
  | gps (m : GpsMsg)
  | windSensors (ms : List WindSensorMsg)
  | kinematics (m : SimWorldStateMsg)
deriving DecidableEq, Repr

/-- State of `PhysicsEngineNode`: the `pub_period_sec` ROS parameter, the
mutable attributes set in `__init__` (`__publish_counter`, `__rudder_angle`,
`__sail_trim_tab_angle`, `__desired_heading`), the set of futures whose
done-callbacks are registered and have not fired, a counter numbering
dispatched goals, the messages published so far, and the log. -/
structure PhysicsNodeState where
  pubPeriod : ℚ
  publishCounter : ℕ
  rudderAngle : ℚ
  sailTrimTabAngle : ℚ
  desiredHeading : Option ℚ
  pendingFutures : List PendingFuture
  nextGoalId : ℕ
  published : List PubMsg
  log : List LogEvent
deriving DecidableEq, Repr

/-- Node state right after `__init__` (counter 0, angles 0, heading `None`,
no outstanding future, nothing published). -/
def initState (p : ℚ) : PhysicsNodeState :=
  { pubPeriod := p
    publishCounter := 0
    rudderAngle := 0
    sailTrimTabAngle := 0
    desiredHeading := none
    pendingFutures := []
    nextGoalId := 0
    published := []
    log := [] }

/-- Method `__publish_gps`: every field is the hardcoded constant 0.0. -/
def publishGpsMsg : GpsMsg :=
  { latitude := 0, longitude := 0, speed := 0, heading := 0 }

/-- Method `__publish_wind_sensors`: two sensors, each with speed 0.0 and
direction 0. -/
def publishWindSensorsMsg : List WindSensorMsg :=
  [{ speed := 0, direction := 0 }, { speed := 0, direction := 0 }]

/-- Method `__publish_kinematics` header computation for publish counter `n` and
period `p`: `sec, nanosec = divmod(self.pub_period * self.publish_counter, 1)`
(floor division and remainder), `int(sec)`, `int(nanosec * 1e9)`, and
`frame_id = str(self.publish_counter)`. -/
def publishKinematicsMsg (p : ℚ) (n : ℕ) : SimWorldStateMsg :=
  let x : ℚ := p * (n : ℚ)
  let sec : ℚ := (⌊x⌋ : ℚ)
  let nanosec : ℚ := x - sec
  { header :=
      { stampSec := pyInt sec
        stampNanosec := pyInt (nanosec * 1000000000)
        frameId := Nat.repr n }
    globalGps := publishGpsMsg }

/-- Method `__publish`, the publish timer callback: publishes GPS, wind sensors and kinematics
(the kinematics header uses the current counter), then increments the publish
counter by one. -/
def publishTimerCallback (s : PhysicsNodeState) : PhysicsNodeState :=
  { s with
    published := s.published ++
      [.gps publishGpsMsg,
       .windSensors publishWindSensorsMsg,
       .kinematics (publishKinematicsMsg s.pubPeriod s.publishCounter)]
    log := .infoPublish :: s.log
    publishCounter := s.publishCounter + 1 }

/-- Method `__desired_heading_sub_callback`: stores the received message. -/
def desiredHeadingSubCallback (s : PhysicsNodeState) (h : ℚ) : PhysicsNodeState :=
  { s with desiredHeading := some h }

/-- Method `__rudder_action_send_goal`, fired by the actuation timer.
`serverTimedOut` is the outcome of `wait_for_server(timeout_sec=...)`.

The decorator guard is modelled from the spec: the decorator
`require_all_subs_active` is imported from
`boat_simulator.nodes.physics_engine.decorators`, a module not part of the
supplied source; per its name and the node's single subscription it skips the
body while the desired-heading subscription has not yet delivered data, which
matches the spec's `submitGoal(desiredHeading)` taking a present heading.

When the wait times out the body only logs a warning and returns (no goal is
dispatched).  Otherwise `send_goal_async` is called — with no check for an
already-outstanding request — registering the feedback callback and the
goal-response done-callback for a fresh goal. -/
def rudderActionSendGoal (s : PhysicsNodeState) (serverTimedOut : Bool) :
    PhysicsNodeState :=
  match s.desiredHeading with
  | none => s
  | some _ =>
    let s1 := { s with log := .debugInitiateRudderGoal :: s.log }
    if serverTimedOut then
      { s1 with log := .warnGoalTimedOut :: s1.log }
    else
      { s1 with
        pendingFutures := s1.pendingFutures ++ [⟨s1.nextGoalId, .response⟩]
        nextGoalId := s1.nextGoalId + 1
        log := .debugCompletedGoalRequest :: s1.log }

/-- Method `__rudder_action_goal_response_callback` for the goal `g`, fired when the
`send_goal_async` future completes (the future is retired first).  `handle`
is `future.result()`: `none` models a missing goal handle and `some b` a
handle with `accepted = b`.  On rejection the method warns and returns; on
acceptance it calls `get_result_async` and registers the result callback. -/
def rudderActionGoalResponseCallback (s : PhysicsNodeState) (g : ℕ)
    (handle : Option Bool) : PhysicsNodeState :=
  let s0 := { s with
    pendingFutures := s.pendingFutures.filter (fun f => f ≠ ⟨g, .response⟩) }
  match handle with
  | some true =>
    { s0 with
      pendingFutures := s0.pendingFutures ++ [⟨g, .result⟩]
      log := .debugGoalAccepted :: s0.log }
  | _ => { s0 with log := .warnGoalRejected :: s0.log }

/-- Method `__rudder_action_get_result_callback` for the goal `g`, fired when the
`get_result_async` future completes (the future is retired first).
`residual` is `future.result().result.remaining_angular_distance`; the body
reports it together with the current rudder angle and stores nothing else. -/
def rudderActionGetResultCallback (s : PhysicsNodeState) (g : ℕ)
    (residual : ℚ) : PhysicsNodeState :=
  { s with
    pendingFutures := s.pendingFutures.filter (fun f => f ≠ ⟨g, .result⟩)
    log := .debugResult residual s.rudderAngle :: s.log }

/-- Method `__rudder_action_feedback_callback`: stores the reported rudder angle in
`__rudder_angle` and logs it.  The goal identity is not consulted by the
body. -/
def rudderActionFeedbackCallback (s : PhysicsNodeState) (angle : ℚ) :
    PhysicsNodeState :=
  { s with
    rudderAngle := angle
    log := .debugFeedback angle :: s.log }

/-- An event delivered to the node by the executor: a timer tick, a
subscription message, or the completion of one of the registered futures
(feedback for goal `g` is delivered through the feedback callback registered
at `send_goal_async` time). -/
inductive Event
  | desiredHeadingMsg (h : ℚ)
  | publishTick
  | sendGoalTick (serverTimedOut : Bool)
  | goalResponse (g : ℕ) (handle : Option Bool)
  | feedback (g : ℕ) (angle : ℚ)
  | result (g : ℕ) (residual : ℚ)
deriving DecidableEq, Repr

/-- Dispatch of one event to the corresponding callback. -/
def stepEvent (s : PhysicsNodeState) : Event → PhysicsNodeState
  | .desiredHeadingMsg h => desiredHeadingSubCallback s h
  | .publishTick => publishTimerCallback s
  | .sendGoalTick t => rudderActionSendGoal s t
  | .goalResponse g handle => rudderActionGoalResponseCallback s g handle
  | .feedback _ angle => rudderActionFeedbackCallback s angle
  | .result g residual => rudderActionGetResultCallback s g residual

/-- Run of an event trace. -/
def runEvents (s : PhysicsNodeState) : List Event → PhysicsNodeState
  | [] => s
  | e :: tr => runEvents (stepEvent s e) tr

/-- Which events the environment can actually deliver in state `s`: a
done-callback only fires for a future that is registered and outstanding, and
feedback is only delivered for an accepted goal (one whose result future is
outstanding). -/
def validEvent (s : PhysicsNodeState) : Event → Bool
  | .desiredHeadingMsg _ => true
  | .publishTick => true
  | .sendGoalTick _ => true
  | .goalResponse g _ => decide (PendingFuture.mk g .response ∈ s.pendingFutures)
  | .feedback g _ => decide (PendingFuture.mk g .result ∈ s.pendingFutures)
  | .result g _ => decide (PendingFuture.mk g .result ∈ s.pendingFutures)

/-- A trace each of whose events is deliverable when reached. -/
def validTraceB (s : PhysicsNodeState) : List Event → Bool
  | [] => true
  | e :: tr => validEvent s e && validTraceB (stepEvent s e) tr

/-! ### Specification-side view of the actuation protocol

The spec describes an abstract `ActuationRequest` with a `state` field over
`{Pending, Accepted, Rejected, Completed, TimedOut}`.  The code keeps no such
field: a request's phase is implicit in which futures are registered.  The
definitions below follow the spec's words and assign each dispatched goal its
abstract state; the refinement theorems relate this view to the code-level
run. -/

/-- The spec's request states. -/
inductive RequestState
  | Pending
  | Accepted
  | Rejected
  | Completed
  | TimedOut
deriving DecidableEq, Repr

/-- Spec-side classification of one invocation of the submission entry point:
skipped (heading not yet received), timed out before dispatch, or dispatched
as goal `g`.  The branches mirror those of `rudderActionSendGoal`. -/
inductive SubmissionOutcome
  | skipped
  | timedOut
  | dispatched (g : ℕ)
deriving DecidableEq, Repr

/-- Outcome of `__rudder_action_send_goal` in state `s`, per its branches. -/
def submissionOutcome (s : PhysicsNodeState) (serverTimedOut : Bool) :
    SubmissionOutcome :=
  match s.desiredHeading with
  | none => .skipped
  | some _ => if serverTimedOut then .timedOut else .dispatched s.nextGoalId

/-- Spec-side state a submission outcome places the request in (the spec
records a timed-out submission as `TimedOut` and a dispatched one as
`Pending`; a skipped tick creates no request). -/
def outcomeState : SubmissionOutcome → Option RequestState
  | .skipped => none
  | .timedOut => some .TimedOut
  | .dispatched _ => some .Pending

/-- Spec-side update of the per-goal abstract state map under one event,
following the spec's state machine: dispatch creates a fresh goal as
`Pending`; the goal-response event moves it to `Accepted` or `Rejected`; the
result event moves it to `Completed`; feedback and the other events leave all
states unchanged. -/
def specUpd (s : PhysicsNodeState) (m : ℕ → Option RequestState) :
    Event → (ℕ → Option RequestState)
  | .sendGoalTick serverTimedOut =>
    match s.desiredHeading with
    | none => m
    | some _ =>
      if serverTimedOut then m
      else fun g => if g = s.nextGoalId then some .Pending else m g
  | .goalResponse g handle =>
    fun g0 =>
      if g0 = g then
        match handle with
        | some true => some .Accepted
        | _ => some .Rejected
      else m g0
  | .result g _ => fun g0 => if g0 = g then some .Completed else m g0
  | _ => m

/-- One step of the code-level state paired with the spec-side state map. -/
def stepSpec (p : PhysicsNodeState × (ℕ → Option RequestState)) (e : Event) :
    PhysicsNodeState × (ℕ → Option RequestState) :=
  (stepEvent p.1 e, specUpd p.1 p.2 e)

/-- Run of the paired code/spec state over an event trace. -/
def runSpec (p : PhysicsNodeState × (ℕ → Option RequestState)) :
    List Event → PhysicsNodeState × (ℕ → Option RequestState)
  | [] => p
  | e :: tr => runSpec (stepSpec p e) tr

/-- Coupling invariant between the code state and the spec-side state map:
every tracked goal was allocated earlier than the next fresh id, a goal is
`Pending` exactly when its goal-response future is outstanding, and
`Accepted` exactly when its result future is outstanding. -/
structure Coupled (s : PhysicsNodeState) (m : ℕ → Option RequestState) : Prop where
  bounded : ∀ g, m g ≠ none → g < s.nextGoalId
  pendIff : ∀ g, (PendingFuture.mk g .response ∈ s.pendingFutures) ↔ m g = some .Pending
  accIff : ∀ g, (PendingFuture.mk g .result ∈ s.pendingFutures) ↔ m g = some .Accepted

/-- The transitions the spec's state machine allows in one step, as a
decidable table: a state may stay put; an untracked goal may be created as
`Pending`; `Pending` may move to `Accepted`, `Rejected` or `TimedOut`;
`Accepted` may move to `Completed`; `Rejected`, `Completed` and `TimedOut`
are terminal. -/
def specTransitionOK : Option RequestState → Option RequestState → Bool
  | none, none => true
  | none, some .Pending => true
  | some .Pending, some .Pending => true
  | some .Pending, some .Accepted => true
  | some .Pending, some .Rejected => true
  | some .Pending, some .TimedOut => true
  | some .Accepted, some .Accepted => true
  | some .Accepted, some .Completed => true
  | some .Rejected, some .Rejected => true
  | some .Completed, some .Completed => true
  | some .TimedOut, some .TimedOut => true
  | _, _ => false

/-- The initial node state is coupled with the empty spec-side map. -/
theorem coupled_init (p : ℚ) : Coupled (initState p) (fun _ => none) := by
  refine ⟨fun g hg => absurd rfl hg, fun g => ?_, fun g => ?_⟩ <;>
    simp [initState]

/-- The coupling invariant is preserved by every deliverable event: the code's
registered-future bookkeeping tracks the spec's per-goal state machine. -/
theorem coupled_step {s : PhysicsNodeState} {m : ℕ → Option RequestState}
    (hc : Coupled s m) {e : Event} (hv : validEvent s e = true) :
    Coupled (stepEvent s e) (specUpd s m e) := by
  obtain ⟨hb, hp, ha⟩ := hc
  cases e with
  | desiredHeadingMsg h => exact ⟨hb, hp, ha⟩
  | publishTick => exact ⟨hb, hp, ha⟩
  | feedback g a => exact ⟨hb, hp, ha⟩
  | sendGoalTick t =>
    cases hd : s.desiredHeading with
    | none =>
      have hstate : stepEvent s (.sendGoalTick t) = s := by
        simp [stepEvent, rudderActionSendGoal, hd]
      have hmap : specUpd s m (.sendGoalTick t) = m := by
        simp [specUpd, hd]
      rw [hstate, hmap]
      exact ⟨hb, hp, ha⟩
    | some h =>
      cases t with
      | true =>
        have hstate : stepEvent s (.sendGoalTick true) =
            { s with log := .warnGoalTimedOut :: .debugInitiateRudderGoal :: s.log } := by
          simp [stepEvent, rudderActionSendGoal, hd]
        have hmap : specUpd s m (.sendGoalTick true) = m := by
          simp [specUpd, hd]
        rw [hstate, hmap]
        exact ⟨hb, hp, ha⟩
      | false =>
        have hstate : stepEvent s (.sendGoalTick false) =
            { s with
              pendingFutures := s.pendingFutures ++ [⟨s.nextGoalId, .response⟩]
              nextGoalId := s.nextGoalId + 1
              log := .debugCompletedGoalRequest :: .debugInitiateRudderGoal :: s.log } := by
          simp [stepEvent, rudderActionSendGoal, hd]
        have hmap : specUpd s m (.sendGoalTick false) =
            fun g => if g = s.nextGoalId then some .Pending else m g := by
          simp [specUpd, hd]
        rw [hstate, hmap]
        refine ⟨fun g hg => ?_, fun g => ?_, fun g => ?_⟩
        · show g < s.nextGoalId + 1
          by_cases h0 : g = s.nextGoalId
          · omega
          · have hmg : m g ≠ none := by simpa [h0] using hg
            exact Nat.lt_succ_of_lt (hb g hmg)
        · by_cases h0 : g = s.nextGoalId
          · subst h0
            have h1 : m s.nextGoalId = none := by
              by_contra hne
              exact absurd (hb _ hne) (lt_irrefl _)
            simp [h1, List.mem_append]
          · simp [h0, List.mem_append, hp g]
        · by_cases h0 : g = s.nextGoalId
          · subst h0
            have h1 : m s.nextGoalId = none := by
              by_contra hne
              exact absurd (hb _ hne) (lt_irrefl _)
            simp [h1, List.mem_append, ha s.nextGoalId]
          · simp [h0, List.mem_append, ha g]
  | goalResponse g handle =>
    have hmem : PendingFuture.mk g .response ∈ s.pendingFutures := by
      simpa [validEvent] using hv
    have hPend : m g = some .Pending := (hp g).1 hmem
    have hgoal : g < s.nextGoalId := hb g (by simp [hPend])
    cases handle with
    | none =>
      have hstate : stepEvent s (.goalResponse g none) =
          { s with
            pendingFutures := s.pendingFutures.filter (fun f => f ≠ ⟨g, .response⟩)
            log := .warnGoalRejected :: s.log } := rfl
      have hmap : specUpd s m (.goalResponse g none) =
          fun g0 => if g0 = g then some .Rejected else m g0 := rfl
      rw [hstate, hmap]
      refine ⟨fun g0 hg0 => ?_, fun g0 => ?_, fun g0 => ?_⟩
      · show g0 < s.nextGoalId
        by_cases h0 : g0 = g
        · subst h0; exact hgoal
        · exact hb g0 (by simpa [h0] using hg0)
      · by_cases h0 : g0 = g
        · subst h0; simp [List.mem_filter]
        · simp [h0, List.mem_filter, hp g0]
      · by_cases h0 : g0 = g
        · subst h0; simp [List.mem_filter, ha g0, hPend]
        · simp [h0, List.mem_filter, ha g0]
    | some b =>
      cases b with
      | false =>
        have hstate : stepEvent s (.goalResponse g (some false)) =
            { s with
              pendingFutures := s.pendingFutures.filter (fun f => f ≠ ⟨g, .response⟩)
              log := .warnGoalRejected :: s.log } := rfl
        have hmap : specUpd s m (.goalResponse g (some false)) =
            fun g0 => if g0 = g then some .Rejected else m g0 := rfl
        rw [hstate, hmap]
        refine ⟨fun g0 hg0 => ?_, fun g0 => ?_, fun g0 => ?_⟩
        · show g0 < s.nextGoalId
          by_cases h0 : g0 = g
          · subst h0; exact hgoal
          · exact hb g0 (by simpa [h0] using hg0)
        · by_cases h0 : g0 = g
          · subst h0; simp [List.mem_filter]
          · simp [h0, List.mem_filter, hp g0]
        · by_cases h0 : g0 = g
          · subst h0; simp [List.mem_filter, ha g0, hPend]
          · simp [h0, List.mem_filter, ha g0]
      | true =>
        have hstate : stepEvent s (.goalResponse g (some true)) =
            { s with
              pendingFutures :=
                (s.pendingFutures.filter (fun f => f ≠ ⟨g, .response⟩)) ++ [⟨g, .result⟩]
              log := .debugGoalAccepted :: s.log } := rfl
        have hmap : specUpd s m (.goalResponse g (some true)) =
            fun g0 => if g0 = g then some .Accepted else m g0 := rfl
        rw [hstate, hmap]
        refine ⟨fun g0 hg0 => ?_, fun g0 => ?_, fun g0 => ?_⟩
        · show g0 < s.nextGoalId
          by_cases h0 : g0 = g
          · subst h0; exact hgoal
          · exact hb g0 (by simpa [h0] using hg0)
        · by_cases h0 : g0 = g
          · subst h0; simp [List.mem_append, List.mem_filter]
          · simp [h0, List.mem_append, List.mem_filter, hp g0]
        · by_cases h0 : g0 = g
          · subst h0; simp [List.mem_append]
          · simp [h0, List.mem_append, List.mem_filter, ha g0]
  | result g r =>
    have hmem : PendingFuture.mk g .result ∈ s.pendingFutures := by
      simpa [validEvent] using hv
    have hAcc : m g = some .Accepted := (ha g).1 hmem
    have hgoal : g < s.nextGoalId := hb g (by simp [hAcc])
    have hstate : stepEvent s (.result g r) =
        { s with
          pendingFutures := s.pendingFutures.filter (fun f => f ≠ ⟨g, .result⟩)
          log := .debugResult r s.rudderAngle :: s.log } := rfl
    have hmap : specUpd s m (.result g r) =
        fun g0 => if g0 = g then some .Completed else m g0 := rfl
    rw [hstate, hmap]
    refine ⟨fun g0 hg0 => ?_, fun g0 => ?_, fun g0 => ?_⟩
    · show g0 < s.nextGoalId
      by_cases h0 : g0 = g
      · subst h0; exact hgoal
      · exact hb g0 (by simpa [h0] using hg0)
    · by_cases h0 : g0 = g
      · subst h0; simp [List.mem_filter, hp g0, hAcc]
      · simp [h0, List.mem_filter, hp g0]
    · by_cases h0 : g0 = g
      · subst h0; simp [List.mem_filter]
      · simp [h0, List.mem_filter, ha g0]

/-- Reflexive transitions are always allowed by the spec's table. -/
theorem specTransitionOK_refl (x : Option RequestState) :
    specTransitionOK x x = true := by
  rcases x with - | st
  · rfl
  · cases st <;> rfl

/-- Running an appended trace is running the pieces in order. -/
theorem runSpec_append (p : PhysicsNodeState × (ℕ → Option RequestState))
    (t1 t2 : List Event) : runSpec p (t1 ++ t2) = runSpec (runSpec p t1) t2 := by
  induction t1 generalizing p with
  | nil => simp [runSpec]
  | cons e t1 ih => simp [runSpec, ih]

/-- A burst of feedback events only moves the rudder angle to the last
reported angle; the registered futures and the spec-side map are untouched. -/
theorem runSpec_feedbacks (g : ℕ) (as : List ℚ)
    (p : PhysicsNodeState × (ℕ → Option RequestState)) :
    (runSpec p (as.map (Event.feedback g))).1.rudderAngle
        = as.getLastD p.1.rudderAngle ∧
    (runSpec p (as.map (Event.feedback g))).1.pendingFutures = p.1.pendingFutures ∧
    (runSpec p (as.map (Event.feedback g))).2 = p.2 := by
  induction as generalizing p with
  | nil => simp [runSpec]
  | cons a as ih =>
    have h := ih (stepSpec p (Event.feedback g a))
    have hrun : runSpec p ((a :: as).map (Event.feedback g))
        = runSpec (stepSpec p (Event.feedback g a)) (as.map (Event.feedback g)) := rfl
    rw [hrun, List.getLastD_cons]
    exact ⟨h.1, h.2.1, h.2.2⟩

/-- A burst of feedback for an accepted goal followed by its result event is
a deliverable trace. -/
theorem validTraceB_feedbacks_result (g : ℕ) (r : ℚ) (as : List ℚ)
    (s : PhysicsNodeState)
    (hmem : PendingFuture.mk g .result ∈ s.pendingFutures) :
    validTraceB s (as.map (Event.feedback g) ++ [Event.result g r]) = true := by
  induction as generalizing s with
  | nil => simp [validTraceB, validEvent, hmem]
  | cons a as ih =>
    have hstep : validTraceB (stepEvent s (Event.feedback g a))
        (as.map (Event.feedback g) ++ [Event.result g r]) = true := ih _ hmem
    simp [validTraceB, validEvent, hmem, hstep]

/-- Along any deliverable trace, a goal's spec-side state ends `Completed`
exactly when it was already `Completed` or a result event for it occurs in
the trace. -/
theorem completed_iff_result_event (tr : List Event) (s : PhysicsNodeState)
    (m : ℕ → Option RequestState) (hc : Coupled s m)
    (hv : validTraceB s tr = true) (g : ℕ) :
    ((runSpec (s, m) tr).2 g = some RequestState.Completed ↔
      (m g = some RequestState.Completed ∨ ∃ r, Event.result g r ∈ tr)) := by
  induction tr generalizing s m with
  | nil => simp [runSpec]
  | cons e tr ih =>
    have hv1 : validEvent s e = true := by
      have := hv
      simp [validTraceB, Bool.and_eq_true] at this
      exact this.1
    have hv2 : validTraceB (stepEvent s e) tr = true := by
      have := hv
      simp [validTraceB, Bool.and_eq_true] at this
      exact this.2
    have hrec := ih (stepEvent s e) (specUpd s m e) (coupled_step hc hv1) hv2
    have hrun : runSpec (s, m) (e :: tr) = runSpec (stepEvent s e, specUpd s m e) tr := rfl
    rw [hrun, hrec]
    obtain ⟨hb, hp, ha⟩ := hc
    cases e with
    | desiredHeadingMsg h => simp [specUpd]
    | publishTick => simp [specUpd]
    | feedback g1 a => simp [specUpd]
    | sendGoalTick t =>
      cases hd : s.desiredHeading with
      | none => simp [specUpd, hd]
      | some h =>
        cases t with
        | true => simp [specUpd, hd]
        | false =>
          by_cases h0 : g = s.nextGoalId
          · subst h0
            have h1 : m s.nextGoalId = none := by
              by_contra hne
              exact absurd (hb _ hne) (lt_irrefl _)
            simp [specUpd, hd, h1]
          · simp [specUpd, hd, h0]
    | goalResponse g1 handle =>
      have hmem : PendingFuture.mk g1 .response ∈ s.pendingFutures := by
        simpa [validEvent] using hv1
      have hPend : m g1 = some .Pending := (hp g1).1 hmem
      by_cases h0 : g = g1
      · subst h0
        cases handle with
        | none => simp [specUpd, hPend]
        | some b => cases b <;> simp [specUpd, hPend]
      · have hne : ∀ r0 : ℚ, Event.goalResponse g1 handle ≠ Event.result g r0 := by
          intro r0 hcontra
          cases hcontra
        cases handle with
        | none => simp [specUpd, h0, fun r0 => hne r0]
        | some b => cases b <;> simp [specUpd, h0]
    | result g1 r1 =>
      by_cases h0 : g = g1
      · subst h0
        constructor
        · intro hh
          right
          exact ⟨r1, by simp⟩
        · intro hh
          left
          simp [specUpd]
      · constructor
        · intro hh
          rcases hh with hh | ⟨r0, hr0⟩
          · left
            simpa [specUpd, h0] using hh
          · right
            exact ⟨r0, by simp [hr0]⟩
        · intro hh
          rcases hh with hh | ⟨r0, hr0⟩
          · left
            simpa [specUpd, h0] using hh
          · rcases List.mem_cons.1 hr0 with heq | hmem0
            · exfalso
              cases heq
              exact h0 rfl
            · right
              exact ⟨r0, hmem0⟩

/-! ### Data-collection node (src/boat_simulator/nodes/data_collection/data_collection_node.py) -/

/-- Keys of the node's `__data_to_write` Python dict: a subscribed topic
(topics abstracted to numbers; their string names play no role in the logic)
or the literal key `"time"` inserted by `__write_to_json`. -/
inductive DCKey
  | topic (t : ℕ)
  | timeKey
deriving DecidableEq, Repr

/-- Values of the `__data_to_write` dict with their Python truthiness
structure: `noneV` is `None` (falsy); `msgV ne` is a message converted by
`message_to_ordereddict` (truthy iff the dict is non-empty, recorded by
`ne`); `timeV t` is the float stored under `"time"` (truthy iff nonzero). -/
inductive DCVal
  | noneV
  | msgV (ne : Bool)
  | timeV (t : ℚ)
deriving DecidableEq, Repr

/-- Python truthiness of a stored value, as tested by `all(...)`. -/
def dcTruthy : DCVal → Bool
  | .noneV => false
  | .msgV ne => ne
  | .timeV t => decide (t ≠ 0)

/-- Python dict assignment `d[k] = v` on an insertion-ordered association
list: update in place when the key exists, else append. -/
def dictSet (d : List (DCKey × DCVal)) (k : DCKey) (v : DCVal) :
    List (DCKey × DCVal) :=
  if d.any (fun p => p.1 = k) then
    d.map (fun p => if p.1 = k then (k, v) else p)
  else d ++ [(k, v)]

/-- One entry appended to the JSON file by `__write_to_json`: the dict key
used for the entry (`self.__json_index_counter`), the `"time"` value stored
into the data dict, whether the serialized string was prefixed with a comma
separator (`if self.__json_index_counter > 0`), and the snapshot of the data
dict that was serialized. -/
structure JsonEntry where
  key : ℕ
  timeField : ℚ
  commaPrefixed : Bool
  data : List (DCKey × DCVal)
deriving DecidableEq, Repr

/-- State of `DataCollectionNode`'s JSON path: the `write_period_sec`
parameter, the data dict, the entry index counter, and the entries written to
the file so far. -/
structure DataCollectionState where
  writePeriod : ℚ
  dataToWrite : List (DCKey × DCVal)
  jsonIndexCounter : ℕ
  jsonEntries : List JsonEntry
deriving DecidableEq, Repr

/-- Method `__init_json_file`: the data dict maps every subscribed topic to `None`,
the index counter is 0 and no entry has been written. -/
def dcInit (p : ℚ) (topics : List ℕ) : DataCollectionState :=
  { writePeriod := p
    dataToWrite := topics.map (fun t => (DCKey.topic t, DCVal.noneV))
    jsonIndexCounter := 0
    jsonEntries := [] }

/-- Method `__general_sub_callback` (JSON branch): stores the latest message of
topic `t`, converted to an ordered dict, into the data dict. -/
def generalSubCallback (s : DataCollectionState) (t : ℕ) (ne : Bool) :
    DataCollectionState :=
  { s with dataToWrite := dictSet s.dataToWrite (.topic t) (.msgV ne) }

/-- Method `__write_to_json`, the write timer callback: if `all(self.__data_to_write.values())`
is truthy, compute `time = counter * write_period`, store it into the data
dict under `"time"`, serialize `{counter: data}` (comma-prefixed when
`counter > 0`), append it to the file and increment the counter; otherwise do
nothing. -/
def writeToJson (s : DataCollectionState) : DataCollectionState :=
  if s.dataToWrite.all (fun p => dcTruthy p.2) then
    let t : ℚ := (s.jsonIndexCounter : ℚ) * s.writePeriod
    let d := dictSet s.dataToWrite .timeKey (.timeV t)
    { s with
      dataToWrite := d
      jsonEntries := s.jsonEntries ++
        [{ key := s.jsonIndexCounter
           timeField := t
           commaPrefixed := decide (s.jsonIndexCounter > 0)
           data := d }]
      jsonIndexCounter := s.jsonIndexCounter + 1 }
  else s

end BoatSim

namespace BoatSim

/-! ### Shared concrete states for witnesses and counterexamples -/

/-- Code/spec pair reached from startup by receiving a desired heading and
dispatching one rudder goal (goal 0 is outstanding with its goal-response
future registered, i.e. Pending in the spec's view). -/
def samplePair : PhysicsNodeState × (ℕ → Option RequestState) :=
  runSpec (initState 1, fun _ => none)
    [Event.desiredHeadingMsg 1, Event.sendGoalTick false]

/-- The pair `samplePair` satisfies the coupling invariant. -/
theorem sampleCoupled : Coupled samplePair.1 samplePair.2 := by
  have h1 := @coupled_step (initState 1) (fun _ => none) (coupled_init 1)
    (Event.desiredHeadingMsg 1) rfl
  have h2 := @coupled_step _ _ h1 (Event.sendGoalTick false) rfl
  exact h2

/-- The node state reached by submit → accept for goal 0: the result future
of goal 0 is registered and the protocol log lines have been emitted. -/
def afterAccept (p h : ℚ) : PhysicsNodeState :=
  { pubPeriod := p
    publishCounter := 0
    rudderAngle := 0
    sailTrimTabAngle := 0
    desiredHeading := some h
    pendingFutures := [⟨0, .result⟩]
    nextGoalId := 1
    published := []
    log := [.debugGoalAccepted, .debugCompletedGoalRequest, .debugInitiateRudderGoal] }

/-- Projections of the result-event step: the callback keeps the rudder
angle, reports the residual with the current rudder angle at the head of the
log, and the spec-side state of the goal becomes Completed. -/
theorem runSpec_result_step (q : PhysicsNodeState × (ℕ → Option RequestState))
    (g : ℕ) (r : ℚ) :
    (runSpec q [Event.result g r]).1.rudderAngle = q.1.rudderAngle ∧
    (runSpec q [Event.result g r]).1.log.head?
        = some (LogEvent.debugResult r q.1.rudderAngle) ∧
    (runSpec q [Event.result g r]).2 g = some RequestState.Completed := by
  refine ⟨rfl, rfl, ?_⟩
  show (if g = g then some RequestState.Completed else q.2 g)
      = some RequestState.Completed
  simp

/-- Truncation `pyInt` is the identity on values that are already integers. -/
theorem pyInt_intCast (n : ℤ) : pyInt ((n : ℤ) : ℚ) = n := by
  by_cases h : (0 : ℚ) ≤ ((n : ℤ) : ℚ)
  · simp [pyInt, h, Int.floor_intCast]
  · simp [pyInt, h, Int.ceil_intCast]

/-! ### Claim theorems -/

/-- C3: a submission tick whose `wait_for_server` call times out dispatches
no goal (the registered futures and goal counter are untouched), changes no
coordinator field, pushes exactly a warning-level log line (after the initial
debug line), and the submission outcome is classified TimedOut by the spec's
error taxonomy.  The transition function is total, so no exception escapes
the entry point. -/
theorem c3_timeout_no_dispatch (s : PhysicsNodeState) (hq : ℚ)
    (hh : s.desiredHeading = some hq) :
    (rudderActionSendGoal s true).pendingFutures = s.pendingFutures ∧
    (rudderActionSendGoal s true).nextGoalId = s.nextGoalId ∧
    (rudderActionSendGoal s true).publishCounter = s.publishCounter ∧
    (rudderActionSendGoal s true).rudderAngle = s.rudderAngle ∧
    (rudderActionSendGoal s true).sailTrimTabAngle = s.sailTrimTabAngle ∧
    (rudderActionSendGoal s true).desiredHeading = s.desiredHeading ∧
    (rudderActionSendGoal s true).published = s.published ∧
    (rudderActionSendGoal s true).log
        = LogEvent.warnGoalTimedOut :: LogEvent.debugInitiateRudderGoal :: s.log ∧
    logLevel LogEvent.warnGoalTimedOut = LogLevel.warn ∧
    submissionOutcome s true = SubmissionOutcome.timedOut ∧
    outcomeState (submissionOutcome s true) = some RequestState.TimedOut := by
  have hstate : rudderActionSendGoal s true =
      { s with log := .warnGoalTimedOut :: .debugInitiateRudderGoal :: s.log } := by
    simp [rudderActionSendGoal, hh]
  have houtcome : submissionOutcome s true = SubmissionOutcome.timedOut := by
    simp [submissionOutcome, hh]
  rw [hstate, houtcome]
  exact ⟨rfl, rfl, rfl, rfl, rfl, rfl, rfl, rfl, rfl, rfl, rfl⟩

/-- C3 witness: the timeout branch evaluated at a concrete reachable state
with the desired heading set. -/
theorem c3_witness :
    (rudderActionSendGoal samplePair.1 true).pendingFutures
        = samplePair.1.pendingFutures ∧
    (rudderActionSendGoal samplePair.1 true).log
        = LogEvent.warnGoalTimedOut :: LogEvent.debugInitiateRudderGoal
            :: samplePair.1.log ∧
    submissionOutcome samplePair.1 true = SubmissionOutcome.timedOut ∧
    outcomeState (submissionOutcome samplePair.1 true)
        = some RequestState.TimedOut := by
  obtain ⟨h1, h2, h3, h4, h5, h6, h7, h8, h9, h10, h11⟩ :=
    c3_timeout_no_dispatch samplePair.1 1 rfl
  exact ⟨h1, h8, h10, h11⟩

/-- C6: the feedback callback updates only the stored rudder angle (and
emits its debug line); the desired heading, publish counter, sail trim tab
angle, registered futures, goal counter, published messages, period and the
spec-side request states are all unchanged. -/
theorem c6_feedback_frame (s : PhysicsNodeState) (g : ℕ) (a : ℚ)
    (m : ℕ → Option RequestState) :
    (stepEvent s (.feedback g a)).rudderAngle = a ∧
    (stepEvent s (.feedback g a)).desiredHeading = s.desiredHeading ∧
    (stepEvent s (.feedback g a)).publishCounter = s.publishCounter ∧
    (stepEvent s (.feedback g a)).sailTrimTabAngle = s.sailTrimTabAngle ∧
    (stepEvent s (.feedback g a)).pendingFutures = s.pendingFutures ∧
    (stepEvent s (.feedback g a)).nextGoalId = s.nextGoalId ∧
    (stepEvent s (.feedback g a)).published = s.published ∧
    (stepEvent s (.feedback g a)).pubPeriod = s.pubPeriod ∧
    (stepEvent s (.feedback g a)).log = LogEvent.debugFeedback a :: s.log ∧
    specUpd s m (.feedback g a) = m :=
  ⟨rfl, rfl, rfl, rfl, rfl, rfl, rfl, rfl, rfl, rfl⟩

/-- C8: every publish tick hands the publishers a GPS message whose latitude,
longitude, speed and heading are the hardcoded 0.0, and a wind-sensors
message holding exactly two sensors with speed 0.0 and direction 0. -/
theorem c8_publish_hardcoded_zeros (s : PhysicsNodeState) :
    publishGpsMsg.latitude = 0 ∧ publishGpsMsg.longitude = 0 ∧
    publishGpsMsg.speed = 0 ∧ publishGpsMsg.heading = 0 ∧
    publishWindSensorsMsg.map WindSensorMsg.speed = [0, 0] ∧
    publishWindSensorsMsg.map WindSensorMsg.direction = [0, 0] ∧
    (stepEvent s .publishTick).published
        = s.published ++
          [.gps publishGpsMsg, .windSensors publishWindSensorsMsg,
           .kinematics (publishKinematicsMsg s.pubPeriod s.publishCounter)] :=
  ⟨rfl, rfl, rfl, rfl, rfl, rfl, rfl⟩

/-- C9: the kinematics message of publish cycle `n` (current counter value)
carries `stamp.sec = ⌊n·pub_period⌋`, `stamp.nanosec` equal to the integer
part of the fractional part of `n·pub_period` scaled by 1e9, and `frame_id`
the decimal rendering of `n`; the publish tick increments the publish
counter by exactly one and no other event changes it. -/
theorem c9_kinematics_header_and_counter (s : PhysicsNodeState) :
    (publishKinematicsMsg s.pubPeriod s.publishCounter).header.stampSec
        = ⌊s.pubPeriod * (s.publishCounter : ℚ)⌋ ∧
    (publishKinematicsMsg s.pubPeriod s.publishCounter).header.stampNanosec
        = ⌊Int.fract (s.pubPeriod * (s.publishCounter : ℚ)) * 1000000000⌋ ∧
    (publishKinematicsMsg s.pubPeriod s.publishCounter).header.frameId
        = Nat.repr s.publishCounter ∧
    (stepEvent s .publishTick).publishCounter = s.publishCounter + 1 ∧
    (∀ e : Event, e ≠ Event.publishTick →
      (stepEvent s e).publishCounter = s.publishCounter) := by
  refine ⟨?_, ?_, rfl, rfl, ?_⟩
  · show pyInt ((⌊s.pubPeriod * (s.publishCounter : ℚ)⌋ : ℚ))
        = ⌊s.pubPeriod * (s.publishCounter : ℚ)⌋
    exact pyInt_intCast _
  · show pyInt ((s.pubPeriod * (s.publishCounter : ℚ)
        - (⌊s.pubPeriod * (s.publishCounter : ℚ)⌋ : ℚ)) * 1000000000)
        = ⌊Int.fract (s.pubPeriod * (s.publishCounter : ℚ)) * 1000000000⌋
    have hfr : s.pubPeriod * (s.publishCounter : ℚ)
        - (⌊s.pubPeriod * (s.publishCounter : ℚ)⌋ : ℚ)
        = Int.fract (s.pubPeriod * (s.publishCounter : ℚ)) :=
      Int.self_sub_floor _
    rw [hfr]
    have hpos : (0 : ℚ) ≤ Int.fract (s.pubPeriod * (s.publishCounter : ℚ)) * 1000000000 :=
      mul_nonneg (Int.fract_nonneg _) (by norm_num)
    simp [pyInt, hpos]
  · intro e he
    cases e with
    | desiredHeadingMsg h => rfl
    | publishTick => exact absurd rfl he
    | sendGoalTick t =>
      cases hd : s.desiredHeading with
      | none => simp [stepEvent, rudderActionSendGoal, hd]
      | some hq => cases t <;> simp [stepEvent, rudderActionSendGoal, hd]
    | goalResponse g handle =>
      rcases handle with - | b
      · rfl
      · cases b <;> rfl
    | feedback g a => rfl
    | result g r => rfl

/-- Concrete state for the C9 witness: period 3/2 and three completed publish
cycles. -/
def c9S : PhysicsNodeState := { initState ((3 : ℚ)/2) with publishCounter := 3 }

/-- C9 witness: the header formula and the counter behavior evaluated at
period 3/2 and cycle 3 (stamp 4.5s = sec 4, nanosec 500000000). -/
theorem c9_witness :
    (publishKinematicsMsg c9S.pubPeriod c9S.publishCounter).header.stampSec = 4 ∧
    (publishKinematicsMsg c9S.pubPeriod c9S.publishCounter).header.stampNanosec
        = 500000000 ∧
    (publishKinematicsMsg c9S.pubPeriod c9S.publishCounter).header.frameId
        = Nat.repr 3 ∧
    (stepEvent c9S Event.publishTick).publishCounter = 4 ∧
    (stepEvent c9S (Event.feedback 0 0)).publishCounter = 3 := by
  obtain ⟨h1, h2, h3, h4, h5⟩ := c9_kinematics_header_and_counter c9S
  have hp : c9S.pubPeriod = (3 : ℚ)/2 := rfl
  have hn : c9S.publishCounter = 3 := rfl
  refine ⟨?_, ?_, ?_, ?_, ?_⟩
  · rw [h1, hp, hn]
    norm_num
  · rw [h2, hp, hn]
    rw [Int.fract]
    norm_num
  · rw [h3, hn]
  · rw [h4, hn]
  · rw [h5 (Event.feedback 0 0) (by simp), hn]

end BoatSim

namespace BoatSim

/-- C1 counterexample: in a reachable state with goal 0 still Pending (its
goal-response future outstanding) and the heading set, the submission entry
point is not a no-op — it dispatches a second goal, so two requests are
outstanding; the double-submission trace is deliverable. -/
theorem c1_counterexample :
    samplePair.2 0 = some RequestState.Pending ∧
    samplePair.1.pendingFutures.length = 1 ∧
    (rudderActionSendGoal samplePair.1 false).pendingFutures.length = 2 ∧
    validTraceB (initState 1)
      [Event.desiredHeadingMsg 1, Event.sendGoalTick false,
       Event.sendGoalTick false] = true :=
  ⟨rfl, rfl, rfl, rfl⟩

/-- C1 (amended): the submission entry point performs no outstanding-request
check.  Whenever the desired heading is set and the server responds within
the timeout, it unconditionally dispatches a fresh goal, appending exactly
one new outstanding request to whatever is already outstanding; at most one
outstanding request holds only by virtue of the external scheduler's period
exceeding the actuator round-trip, not by any code in the entry point. -/
theorem c1_submission_appends_request (s : PhysicsNodeState) (hq : ℚ)
    (hh : s.desiredHeading = some hq) :
    (rudderActionSendGoal s false).pendingFutures
        = s.pendingFutures ++ [⟨s.nextGoalId, .response⟩] ∧
    (rudderActionSendGoal s false).nextGoalId = s.nextGoalId + 1 ∧
    submissionOutcome s false = SubmissionOutcome.dispatched s.nextGoalId := by
  have hstate : rudderActionSendGoal s false =
      { s with
        pendingFutures := s.pendingFutures ++ [⟨s.nextGoalId, .response⟩]
        nextGoalId := s.nextGoalId + 1
        log := .debugCompletedGoalRequest :: .debugInitiateRudderGoal :: s.log } := by
    simp [rudderActionSendGoal, hh]
  rw [hstate]
  exact ⟨rfl, rfl, by simp [submissionOutcome, hh]⟩

/-- C1 witness: the amended statement evaluated at the state with goal 0
outstanding. -/
theorem c1_witness :
    (rudderActionSendGoal samplePair.1 false).pendingFutures
        = samplePair.1.pendingFutures ++ [⟨samplePair.1.nextGoalId, .response⟩] ∧
    (rudderActionSendGoal samplePair.1 false).nextGoalId
        = samplePair.1.nextGoalId + 1 ∧
    submissionOutcome samplePair.1 false
        = SubmissionOutcome.dispatched samplePair.1.nextGoalId :=
  c1_submission_appends_request samplePair.1 1 rfl

/-- C2: for every run submit → accept → feedback* → result (with at least
one feedback), the final rudder angle equals the angle of the last feedback
event, the result callback reports exactly the residual carried by the
result event (paired with that final rudder angle) as the coordinator's
result, the goal's spec-side state ends Completed, and the whole trace is
deliverable. -/
theorem c2_submit_accept_feedbacks_result (p hq : ℚ) (as : List ℚ) (r : ℚ)
    (hne : as ≠ []) :
    (runSpec (initState p, fun _ => none)
        (Event.desiredHeadingMsg hq :: Event.sendGoalTick false ::
          Event.goalResponse 0 (some true) ::
          (as.map (Event.feedback 0) ++ [Event.result 0 r]))).1.rudderAngle
        = as.getLast hne ∧
    (runSpec (initState p, fun _ => none)
        (Event.desiredHeadingMsg hq :: Event.sendGoalTick false ::
          Event.goalResponse 0 (some true) ::
          (as.map (Event.feedback 0) ++ [Event.result 0 r]))).1.log.head?
        = some (LogEvent.debugResult r (as.getLast hne)) ∧
    (runSpec (initState p, fun _ => none)
        (Event.desiredHeadingMsg hq :: Event.sendGoalTick false ::
          Event.goalResponse 0 (some true) ::
          (as.map (Event.feedback 0) ++ [Event.result 0 r]))).2 0
        = some RequestState.Completed ∧
    validTraceB (initState p)
      (Event.desiredHeadingMsg hq :: Event.sendGoalTick false ::
        Event.goalResponse 0 (some true) ::
        (as.map (Event.feedback 0) ++ [Event.result 0 r])) = true := by
  have hpre : runSpec (initState p, fun _ => none)
      (Event.desiredHeadingMsg hq :: Event.sendGoalTick false ::
        Event.goalResponse 0 (some true) ::
        (as.map (Event.feedback 0) ++ [Event.result 0 r]))
      = runSpec (runSpec (initState p, fun _ => none)
          [Event.desiredHeadingMsg hq, Event.sendGoalTick false,
           Event.goalResponse 0 (some true)])
          (as.map (Event.feedback 0) ++ [Event.result 0 r]) := rfl
  have happ := runSpec_append
    (runSpec (initState p, fun _ => none)
      [Event.desiredHeadingMsg hq, Event.sendGoalTick false,
       Event.goalResponse 0 (some true)])
    (as.map (Event.feedback 0)) [Event.result 0 r]
  obtain ⟨hr, hf, hm⟩ := runSpec_feedbacks 0 as
    (runSpec (initState p, fun _ => none)
      [Event.desiredHeadingMsg hq, Event.sendGoalTick false,
       Event.goalResponse 0 (some true)])
  have hr0 : (runSpec (runSpec (initState p, fun _ => none)
      [Event.desiredHeadingMsg hq, Event.sendGoalTick false,
       Event.goalResponse 0 (some true)])
      (as.map (Event.feedback 0))).1.rudderAngle = as.getLastD 0 := hr
  have hlast : as.getLastD (0 : ℚ) = as.getLast hne := by
    rw [List.getLastD_eq_getLast?, List.getLast?_eq_getLast as hne]
    rfl
  obtain ⟨hs1, hs2, hs3⟩ := runSpec_result_step
    (runSpec (runSpec (initState p, fun _ => none)
      [Event.desiredHeadingMsg hq, Event.sendGoalTick false,
       Event.goalResponse 0 (some true)])
      (as.map (Event.feedback 0))) 0 r
  refine ⟨?_, ?_, ?_, ?_⟩
  · rw [hpre, happ, hs1, hr0, hlast]
  · rw [hpre, happ, hs2, hr0, hlast]
  · rw [hpre, happ]
    exact hs3
  · have hmem : PendingFuture.mk 0 .result ∈ (afterAccept p hq).pendingFutures := by
      simp [afterAccept]
    exact validTraceB_feedbacks_result 0 r as (afterAccept p hq) hmem

/-- C2 witness: the spec's scenario submit(0.5) → accept → feedback(0.1) →
feedback(0.3) → result(0.02) ends with rudder angle 0.3, reported result
0.02, and state Completed. -/
theorem c2_witness :
    (runSpec (initState 1, fun _ => none)
        (Event.desiredHeadingMsg ((1:ℚ)/2) :: Event.sendGoalTick false ::
          Event.goalResponse 0 (some true) ::
          (([(1:ℚ)/10, 3/10]).map (Event.feedback 0)
            ++ [Event.result 0 ((1:ℚ)/50)]))).1.rudderAngle = (3:ℚ)/10 ∧
    (runSpec (initState 1, fun _ => none)
        (Event.desiredHeadingMsg ((1:ℚ)/2) :: Event.sendGoalTick false ::
          Event.goalResponse 0 (some true) ::
          (([(1:ℚ)/10, 3/10]).map (Event.feedback 0)
            ++ [Event.result 0 ((1:ℚ)/50)]))).1.log.head?
        = some (LogEvent.debugResult ((1:ℚ)/50) ((3:ℚ)/10)) ∧
    (runSpec (initState 1, fun _ => none)
        (Event.desiredHeadingMsg ((1:ℚ)/2) :: Event.sendGoalTick false ::
          Event.goalResponse 0 (some true) ::
          (([(1:ℚ)/10, 3/10]).map (Event.feedback 0)
            ++ [Event.result 0 ((1:ℚ)/50)]))).2 0
        = some RequestState.Completed ∧
    validTraceB (initState 1)
      (Event.desiredHeadingMsg ((1:ℚ)/2) :: Event.sendGoalTick false ::
        Event.goalResponse 0 (some true) ::
        (([(1:ℚ)/10, 3/10]).map (Event.feedback 0)
          ++ [Event.result 0 ((1:ℚ)/50)])) = true := by
  have h := c2_submit_accept_feedbacks_result 1 ((1:ℚ)/2)
    [(1:ℚ)/10, 3/10] ((1:ℚ)/50) (by simp)
  exact ⟨h.1, h.2.1, h.2.2.1, h.2.2.2⟩

/-- C4: a goal-response callback reporting rejection (no goal handle, or a
handle with `accepted = false`) retires the response future without
registering a result future, pushes exactly a warning-level log line, moves
the goal's spec-side state to Rejected, leaves every coordinator field
unchanged, makes any later feedback or result event for that goal
undeliverable, and leaves the coordinator ready to dispatch a fresh
submission on the next tick. -/
theorem c4_rejected_submission (s : PhysicsNodeState)
    (m : ℕ → Option RequestState) (g : ℕ) (hc : Coupled s m)
    (hg : m g = some RequestState.Pending) (handle : Option Bool)
    (hrej : handle = none ∨ handle = some false) :
    (rudderActionGoalResponseCallback s g handle).pendingFutures
        = s.pendingFutures.filter (fun f => f ≠ ⟨g, .response⟩) ∧
    (rudderActionGoalResponseCallback s g handle).log
        = LogEvent.warnGoalRejected :: s.log ∧
    logLevel LogEvent.warnGoalRejected = LogLevel.warn ∧
    specUpd s m (.goalResponse g handle) g = some RequestState.Rejected ∧
    (∀ a : ℚ, validEvent (rudderActionGoalResponseCallback s g handle)
        (.feedback g a) = false) ∧
    (∀ r0 : ℚ, validEvent (rudderActionGoalResponseCallback s g handle)
        (.result g r0) = false) ∧
    (rudderActionGoalResponseCallback s g handle).rudderAngle = s.rudderAngle ∧
    (rudderActionGoalResponseCallback s g handle).desiredHeading
        = s.desiredHeading ∧
    (∀ hq : ℚ, s.desiredHeading = some hq →
      submissionOutcome (rudderActionGoalResponseCallback s g handle) false
        = SubmissionOutcome.dispatched
            (rudderActionGoalResponseCallback s g handle).nextGoalId) := by
  have hnmem : PendingFuture.mk g .result ∉ s.pendingFutures := by
    rw [hc.accIff g]
    simp [hg]
  have hbranch : rudderActionGoalResponseCallback s g handle =
      { s with
        pendingFutures := s.pendingFutures.filter (fun f => f ≠ ⟨g, .response⟩)
        log := .warnGoalRejected :: s.log } := by
    rcases hrej with rfl | rfl <;> rfl
  have hmapg : specUpd s m (.goalResponse g handle) g
      = some RequestState.Rejected := by
    rcases hrej with rfl | rfl <;> simp [specUpd]
  rw [hbranch]
  refine ⟨rfl, rfl, rfl, hmapg, ?_, ?_, rfl, rfl, ?_⟩
  · intro a
    simp [validEvent, List.mem_filter, hnmem]
  · intro r0
    simp [validEvent, List.mem_filter, hnmem]
  · intro hq hdq
    simp [submissionOutcome, hdq]

/-- C4 witness: rejection of the outstanding goal 0 evaluated concretely,
including the readiness of the next-tick submission. -/
theorem c4_witness :
    (rudderActionGoalResponseCallback samplePair.1 0 (some false)).pendingFutures
        = samplePair.1.pendingFutures.filter (fun f => f ≠ ⟨0, .response⟩) ∧
    (rudderActionGoalResponseCallback samplePair.1 0 (some false)).log
        = LogEvent.warnGoalRejected :: samplePair.1.log ∧
    specUpd samplePair.1 samplePair.2 (.goalResponse 0 (some false)) 0
        = some RequestState.Rejected ∧
    validEvent (rudderActionGoalResponseCallback samplePair.1 0 (some false))
        (.feedback 0 7) = false ∧
    validEvent (rudderActionGoalResponseCallback samplePair.1 0 (some false))
        (.result 0 7) = false ∧
    submissionOutcome
        (rudderActionGoalResponseCallback samplePair.1 0 (some false)) false
      = SubmissionOutcome.dispatched
          (rudderActionGoalResponseCallback samplePair.1 0 (some false)).nextGoalId := by
  obtain ⟨h1, h2, h3, h4, h5, h6, h7, h8, h9⟩ :=
    c4_rejected_submission samplePair.1 samplePair.2 0 sampleCoupled rfl
      (some false) (Or.inr rfl)
  exact ⟨h1, h2, h4, h5 7, h6 7, h9 1 rfl⟩

/-- C5: under the coupling invariant, every deliverable event moves each
goal's spec-side state only along the spec's state machine (creation as
Pending, Pending to Accepted/Rejected, Accepted to Completed, terminal
states frozen), the invariant is preserved, and the coordinator always
accepts a fresh submission once a heading is known. -/
theorem c5_state_machine_conformance (s : PhysicsNodeState)
    (m : ℕ → Option RequestState) (hc : Coupled s m) (e : Event)
    (hv : validEvent s e = true) (g : ℕ) :
    specTransitionOK (m g) (specUpd s m e g) = true ∧
    Coupled (stepEvent s e) (specUpd s m e) ∧
    (∀ hq : ℚ, s.desiredHeading = some hq →
      submissionOutcome s false = SubmissionOutcome.dispatched s.nextGoalId) := by
  refine ⟨?_, coupled_step hc hv, ?_⟩
  · cases e with
    | desiredHeadingMsg h => exact specTransitionOK_refl (m g)
    | publishTick => exact specTransitionOK_refl (m g)
    | feedback g1 a => exact specTransitionOK_refl (m g)
    | sendGoalTick t =>
      cases hd : s.desiredHeading with
      | none =>
        have hmap : specUpd s m (.sendGoalTick t) = m := by simp [specUpd, hd]
        rw [hmap]
        exact specTransitionOK_refl (m g)
      | some hq =>
        cases t with
        | true =>
          have hmap : specUpd s m (.sendGoalTick true) = m := by
            simp [specUpd, hd]
          rw [hmap]
          exact specTransitionOK_refl (m g)
        | false =>
          have hmap : specUpd s m (.sendGoalTick false)
              = fun g0 => if g0 = s.nextGoalId then some .Pending else m g0 := by
            simp [specUpd, hd]
          rw [hmap]
          by_cases h0 : g = s.nextGoalId
          · subst h0
            have h1 : m s.nextGoalId = none := by
              by_contra hne
              exact absurd (hc.bounded _ hne) (lt_irrefl _)
            simp [h1, specTransitionOK]
          · simp only [h0, if_false]
            exact specTransitionOK_refl (m g)
    | goalResponse g1 handle =>
      have hmem : PendingFuture.mk g1 .response ∈ s.pendingFutures := by
        simpa [validEvent] using hv
      have hPend : m g1 = some .Pending := (hc.pendIff g1).1 hmem
      by_cases h0 : g = g1
      · subst h0
        rcases handle with - | b
        · simp [specUpd, hPend, specTransitionOK]
        · cases b <;> simp [specUpd, hPend, specTransitionOK]
      · have hmap : specUpd s m (.goalResponse g1 handle) g = m g := by
          simp [specUpd, h0]
        rw [hmap]
        exact specTransitionOK_refl (m g)
    | result g1 r1 =>
      have hmem : PendingFuture.mk g1 .result ∈ s.pendingFutures := by
        simpa [validEvent] using hv
      have hAcc : m g1 = some .Accepted := (hc.accIff g1).1 hmem
      by_cases h0 : g = g1
      · subst h0
        simp [specUpd, hAcc, specTransitionOK]
      · have hmap : specUpd s m (.result g1 r1) g = m g := by
          simp [specUpd, h0]
        rw [hmap]
        exact specTransitionOK_refl (m g)
  · intro hq hdq
    simp [submissionOutcome, hdq]

/-- C5 witness: acceptance of the outstanding Pending goal conforms to the
table, and the coordinator stays ready to dispatch. -/
theorem c5_witness :
    specTransitionOK (samplePair.2 0)
        (specUpd samplePair.1 samplePair.2 (.goalResponse 0 (some true)) 0)
      = true ∧
    submissionOutcome samplePair.1 false
      = SubmissionOutcome.dispatched samplePair.1.nextGoalId := by
  obtain ⟨h1, h2, h3⟩ := c5_state_machine_conformance samplePair.1 samplePair.2
    sampleCoupled (.goalResponse 0 (some true)) rfl 0
  exact ⟨h1, h3 1 rfl⟩

/-- C7: along any deliverable trace from startup, a goal's state ends
Completed exactly when a result event for it occurred; in every other state
(Pending, Accepted, Rejected, TimedOut or never created) no result value
exists for the request. -/
theorem c7_result_iff_completed (p : ℚ) (tr : List Event) (g : ℕ)
    (hv : validTraceB (initState p) tr = true) :
    ((runSpec (initState p, fun _ => none) tr).2 g
        = some RequestState.Completed
      ↔ ∃ r, Event.result g r ∈ tr) := by
  have h := completed_iff_result_event tr (initState p) (fun _ => none)
    (coupled_init p) hv g
  simpa using h

/-- Deliverable trace for the C7 witness: one full successful actuation. -/
def c7Trace : List Event :=
  [Event.desiredHeadingMsg 1, Event.sendGoalTick false,
   Event.goalResponse 0 (some true), Event.result 0 2]

/-- C7 witness: the equivalence evaluated on a concrete completed run. -/
theorem c7_witness :
    ((runSpec (initState 1, fun _ => none) c7Trace).2 0
        = some RequestState.Completed
      ↔ ∃ r, Event.result 0 r ∈ c7Trace) :=
  c7_result_iff_completed 1 c7Trace 0 rfl

end BoatSim

namespace BoatSim

/-- State after one topic message and one successful JSON write (entry 0 is
written; the write stores `time = 0.0` into the same dict the guard
checks). -/
def dcAfterFirstWrite : DataCollectionState :=
  writeToJson (generalSubCallback (dcInit 1 [0]) 0 true)

/-- State after a fresh topic message and a second timer firing. -/
def dcSecondAttempt : DataCollectionState :=
  writeToJson (generalSubCallback dcAfterFirstWrite 0 true)

/-- C10 (code bug): after entry 0 is written, the `"time"` key (value 0.0,
falsy) lives in the checked dict, so even though every subscribed topic has
a recorded truthy latest message, `all(self.__data_to_write.values())` is
False and the timer callback appends nothing — no entry after index 0 can
ever be written, contradicting the write-period design and the comma logic
for indices above 0. -/
theorem c10_time_field_blocks_rewrites :
    dcAfterFirstWrite.jsonEntries.length = 1 ∧
    dcAfterFirstWrite.jsonIndexCounter = 1 ∧
    ((generalSubCallback dcAfterFirstWrite 0 true).dataToWrite.all
        (fun q => match q.1 with
          | DCKey.topic _ => dcTruthy q.2
          | DCKey.timeKey => true)) = true ∧
    ((generalSubCallback dcAfterFirstWrite 0 true).dataToWrite.all
        (fun q => dcTruthy q.2)) = false ∧
    dcSecondAttempt.jsonEntries = dcAfterFirstWrite.jsonEntries ∧
    dcSecondAttempt.jsonIndexCounter = dcAfterFirstWrite.jsonIndexCounter := by
  refine ⟨rfl, rfl, rfl, ?_, ?_, ?_⟩
  · simp [dcAfterFirstWrite, dcInit, generalSubCallback, writeToJson, dictSet,
      dcTruthy]
  · simp [dcSecondAttempt, dcAfterFirstWrite, dcInit, generalSubCallback,
      writeToJson, dictSet, dcTruthy]
  · simp [dcSecondAttempt, dcAfterFirstWrite, dcInit, generalSubCallback,
      writeToJson, dictSet, dcTruthy]

end BoatSim
